import Mathlib

/-
Verification of the 401(k) growth projection engine in src/app.py.

The engine is the pure function calculate_401k_growth together with the
constant uniform_lifetime_table.  Monetary amounts, rates and divisors are
modelled as rationals; ages as integers; the Python built-in round
(round half to even) is modelled by pyRound.
-/

namespace K401

/-- Round half to even on rationals, modelling the Python built-in round
as used at src/app.py lines 60, 99 and 100. -/
def pyRound (x : ℚ) : ℤ :=
  if x - ⌊x⌋ < 1/2 then ⌊x⌋
  else if 1/2 < x - ⌊x⌋ then ⌊x⌋ + 1
  else if 2 ∣ ⌊x⌋ then ⌊x⌋ else ⌊x⌋ + 1

/-- The IRS Uniform Lifetime Table of src/app.py lines 17-47: an
age-to-divisor association for ages 72 to 100. -/
def uniform_lifetime_table : List (ℤ × ℚ) :=
  [(72, 27.4), (73, 26.5), (74, 25.5), (75, 24.6), (76, 23.7), (77, 22.9),
   (78, 22.0), (79, 21.1), (80, 20.2), (81, 19.4), (82, 18.5), (83, 17.7),
   (84, 16.8), (85, 16.0), (86, 15.2), (87, 14.4), (88, 13.7), (89, 12.9),
   (90, 12.2), (91, 11.5), (92, 10.8), (93, 10.1), (94, 9.5), (95, 8.9),
   (96, 8.4), (97, 7.8), (98, 7.3), (99, 6.8), (100, 6.4)]

/-- Dictionary lookup uniform_lifetime_table[age], as an Option, modelling
the membership test at src/app.py line 87 and the access at line 88. -/
def lookupDivisor (age : ℤ) : Option ℚ :=
  (uniform_lifetime_table.find? (fun e => e.1 == age)).map (fun e => e.2)

/-- The parameters of calculate_401k_growth (src/app.py lines 50-59). -/
structure ProjInput where
  initial_balance : ℚ
  annual_contributions : List ℚ
  retirement_age : ℤ
  current_age : ℤ
  withdrawal_rate : ℚ
  enable_rmd : Bool
  growth_rate_aggressive : ℚ
  growth_rate_conservative : ℚ

/-- Contribution step (src/app.py lines 70-72): add the contribution while
age is strictly below retirement age. -/
def afterContribution (p : ProjInput) (age : ℤ) (balance contribution : ℚ) : ℚ :=
  if age < p.retirement_age then balance + contribution else balance

/-- Growth step (src/app.py lines 74-78): aggressive rate while
age + 5 is strictly below retirement age, conservative rate otherwise. -/
def afterGrowth (p : ProjInput) (age : ℤ) (balance : ℚ) : ℚ :=
  if age + 5 < p.retirement_age then balance * (1 + p.growth_rate_aggressive / 100)
  else balance * (1 + p.growth_rate_conservative / 100)

/-- Withdrawal-rate amount before any RMD adjustment (src/app.py
lines 81-83), computed from the balance entering the step. -/
def baseWithdrawal (p : ProjInput) (age : ℤ) (previous_balance : ℚ) : ℚ :=
  if p.retirement_age ≤ age then previous_balance * (p.withdrawal_rate / 100) else 0

/-- Withdrawal after the RMD adjustment (src/app.py lines 81-92): when RMD
is enabled, age is at least 72 and the table has the age, the withdrawal is
raised to previous_balance divided by the divisor if below it. -/
def withdrawalAmount (p : ProjInput) (age : ℤ) (previous_balance : ℚ) : ℚ :=
  if p.enable_rmd ∧ 72 ≤ age then
    match lookupDivisor age with
    | some divisor =>
        if baseWithdrawal p age previous_balance < previous_balance / divisor
        then previous_balance / divisor
        else baseWithdrawal p age previous_balance
    | none => baseWithdrawal p age previous_balance
  else baseWithdrawal p age previous_balance

/-- One iteration of the loop of src/app.py lines 64-100 at year index i:
yields the new running balance (after deducting the withdrawal and clamping
at zero, lines 94-96) and the withdrawal of the year. -/
def stepResult (p : ProjInput) (balance : ℚ) (i : ℕ) (contribution : ℚ) : ℚ × ℚ :=
  (max (afterGrowth p (p.current_age + i)
          (afterContribution p (p.current_age + i) balance contribution)
        - withdrawalAmount p (p.current_age + i) balance) 0,
   withdrawalAmount p (p.current_age + i) balance)

/-- The loop of src/app.py lines 64-100: the running balance is carried
unrounded from step to step, while the values recorded in annual_data and
withdrawals (lines 98-100) are rounded. -/
def runLoop (p : ProjInput) : ℚ → ℕ → List ℚ → List ℤ × List ℤ
  | _, _, [] => ([], [])
  | balance, i, c :: cs =>
      let s := stepResult p balance i c
      let rest := runLoop p s.1 (i + 1) cs
      (pyRound s.1 :: rest.1, pyRound s.2 :: rest.2)

/-- calculate_401k_growth (src/app.py lines 50-102): the initial balance is
rounded once (line 60) and the loop returns the pair (annual_data,
withdrawals). -/
def calculate_401k_growth (p : ProjInput) : List ℤ × List ℤ :=
  runLoop p ((pyRound p.initial_balance : ℤ) : ℚ) 0 p.annual_contributions

/-- The running balance threaded through the loop, without recording:
same stepping as runLoop restricted to its first component. -/
def threadBalance (p : ProjInput) : ℚ → ℕ → List ℚ → ℚ
  | balance, _, [] => balance
  | balance, i, c :: cs => threadBalance p (stepResult p balance i c).1 (i + 1) cs

/-- The balance entering step i of calculate_401k_growth, that is the value
of the variable previous_balance at src/app.py line 68 in iteration i. -/
def balanceBefore (p : ProjInput) (i : ℕ) : ℚ :=
  threadBalance p ((pyRound p.initial_balance : ℤ) : ℚ) 0 (p.annual_contributions.take i)

/- ### Basic facts about pyRound -/

theorem pyRound_intCast (n : ℤ) : pyRound (n : ℚ) = n := by
  norm_num [pyRound, Int.floor_intCast]

theorem pyRound_zero : pyRound 0 = 0 := by
  simpa using pyRound_intCast 0

theorem pyRound_nonneg {x : ℚ} (hx : 0 ≤ x) : 0 ≤ pyRound x := by
  have h0 : (0 : ℤ) ≤ ⌊x⌋ := Int.floor_nonneg.mpr hx
  unfold pyRound
  split_ifs <;> omega

theorem pyRound_mono {x y : ℚ} (hxy : x ≤ y) : pyRound x ≤ pyRound y := by
  have hf : ⌊x⌋ ≤ ⌊y⌋ := Int.floor_mono hxy
  unfold pyRound
  rcases eq_or_lt_of_le hf with heq | hlt
  · rw [← heq]
    have hr : x - (⌊x⌋ : ℚ) ≤ y - (⌊x⌋ : ℚ) := by linarith
    split_ifs <;> first | omega | linarith
  · split_ifs <;> omega

theorem pyRound_pos {x : ℚ} (hx : 1/2 < x) : 1 ≤ pyRound x := by
  have h0 : (0 : ℤ) ≤ ⌊x⌋ := Int.floor_nonneg.mpr (by linarith)
  have hfl : x < (⌊x⌋ : ℚ) + 1 := Int.lt_floor_add_one x
  unfold pyRound
  split_ifs with h1 h2 h3
  · by_contra hc
    push_neg at hc
    have hz : ⌊x⌋ = 0 := by omega
    rw [hz] at h1
    push_cast at h1
    linarith
  · omega
  · by_contra hc
    push_neg at hc
    have hz : ⌊x⌋ = 0 := by omega
    rw [hz] at h1 h2
    push_cast at h1 h2
    linarith
  · omega

/- ### Basic facts about the lifetime table -/

theorem uniform_lifetime_table_bounds :
    ∀ e ∈ uniform_lifetime_table, 72 ≤ e.1 ∧ e.1 ≤ 100 ∧ (6.4 : ℚ) ≤ e.2 := by
  intro e he
  fin_cases he <;> norm_num

theorem lookupDivisor_mem {a : ℤ} {d : ℚ} (h : lookupDivisor a = some d) :
    72 ≤ a ∧ a ≤ 100 ∧ (6.4 : ℚ) ≤ d := by
  unfold lookupDivisor at h
  cases hf : uniform_lifetime_table.find? (fun e => e.1 == a) with
  | none => rw [hf] at h; exact Option.noConfusion h
  | some e =>
      rw [hf] at h
      have hd : e.2 = d := by simpa using h
      have hmem : e ∈ uniform_lifetime_table := List.mem_of_find?_eq_some hf
      have hpred := List.find?_some hf
      have ha : e.1 = a := by simpa using hpred
      have hb := uniform_lifetime_table_bounds e hmem
      rw [ha, hd] at hb
      exact hb

theorem lookupDivisor_72 : lookupDivisor 72 = some (27.4 : ℚ) := by
  norm_num [lookupDivisor, uniform_lifetime_table]

/- ### Positional characterisation of the outputs -/

theorem runLoop_fst_length (p : ProjInput) (b : ℚ) (k : ℕ) (cs : List ℚ) :
    (runLoop p b k cs).1.length = cs.length := by
  induction cs generalizing b k with
  | nil => simp [runLoop]
  | cons c cs ih => simp [runLoop, ih]

theorem runLoop_snd_length (p : ProjInput) (b : ℚ) (k : ℕ) (cs : List ℚ) :
    (runLoop p b k cs).2.length = cs.length := by
  induction cs generalizing b k with
  | nil => simp [runLoop]
  | cons c cs ih => simp [runLoop, ih]

theorem runLoop_fst_get (p : ProjInput) (b : ℚ) (k j : ℕ) (cs : List ℚ)
    (h : j < cs.length) :
    (runLoop p b k cs).1[j]? =
      some (pyRound (stepResult p (threadBalance p b k (cs.take j)) (k + j) (cs.getD j 0)).1) := by
  induction cs generalizing b k j with
  | nil => simp at h
  | cons c cs ih =>
      cases j with
      | zero => simp [runLoop, threadBalance, List.getD]
      | succ j =>
          have hj : j < cs.length := by simpa using h
          have hidx : k + (j + 1) = (k + 1) + j := by omega
          simp only [runLoop, List.getElem?_cons_succ, List.take_succ_cons,
            threadBalance, List.getD_cons_succ, hidx]
          exact ih (stepResult p b k c).1 (k + 1) j hj

theorem runLoop_snd_get (p : ProjInput) (b : ℚ) (k j : ℕ) (cs : List ℚ)
    (h : j < cs.length) :
    (runLoop p b k cs).2[j]? =
      some (pyRound (stepResult p (threadBalance p b k (cs.take j)) (k + j) (cs.getD j 0)).2) := by
  induction cs generalizing b k j with
  | nil => simp at h
  | cons c cs ih =>
      cases j with
      | zero => simp [runLoop, threadBalance, List.getD]
      | succ j =>
          have hj : j < cs.length := by simpa using h
          have hidx : k + (j + 1) = (k + 1) + j := by omega
          simp only [runLoop, List.getElem?_cons_succ, List.take_succ_cons,
            threadBalance, List.getD_cons_succ, hidx]
          exact ih (stepResult p b k c).1 (k + 1) j hj

theorem withdrawals_get (p : ProjInput) {i : ℕ} (hi : i < p.annual_contributions.length) :
    (calculate_401k_growth p).2[i]? =
      some (pyRound (withdrawalAmount p (p.current_age + i) (balanceBefore p i))) := by
  rw [calculate_401k_growth, runLoop_snd_get p _ 0 i _ hi]
  simp only [Nat.zero_add]
  rfl

theorem threadBalance_append (p : ProjInput) (b : ℚ) (k : ℕ) (l1 l2 : List ℚ) :
    threadBalance p b k (l1 ++ l2) =
      threadBalance p (threadBalance p b k l1) (k + l1.length) l2 := by
  induction l1 generalizing b k with
  | nil => simp [threadBalance]
  | cons c cs ih =>
      have h1 : threadBalance p b k ((c :: cs) ++ l2)
          = threadBalance p (stepResult p b k c).1 (k + 1) (cs ++ l2) := rfl
      have h2 : threadBalance p b k (c :: cs)
          = threadBalance p (stepResult p b k c).1 (k + 1) cs := rfl
      have h3 : k + 1 + cs.length = k + (c :: cs).length := by
        simp only [List.length_cons]
        omega
      rw [h1, ih, h2, h3]

theorem balanceBefore_succ (p : ProjInput) {i : ℕ} (hi : i < p.annual_contributions.length) :
    balanceBefore p (i + 1) =
      (stepResult p (balanceBefore p i) i (p.annual_contributions.getD i 0)).1 := by
  unfold balanceBefore
  rw [List.take_succ, threadBalance_append]
  rw [List.getElem?_eq_getElem hi]
  simp only [Option.toList_some, threadBalance, List.length_take]
  rw [List.getD_eq_getElem _ _ hi]
  congr 2
  omega

theorem balances_get (p : ProjInput) {i : ℕ} (hi : i < p.annual_contributions.length) :
    (calculate_401k_growth p).1[i]? = some (pyRound (balanceBefore p (i + 1))) := by
  rw [calculate_401k_growth, runLoop_fst_get p _ 0 i _ hi, balanceBefore_succ p hi]
  simp only [Nat.zero_add]
  rfl

theorem threadBalance_nonneg (p : ProjInput) {b : ℚ} (hb : 0 ≤ b) (k : ℕ) (cs : List ℚ) :
    0 ≤ threadBalance p b k cs := by
  induction cs generalizing b k with
  | nil => simpa [threadBalance] using hb
  | cons c cs ih => exact ih (le_max_right _ _) (k + 1)

theorem balanceBefore_nonneg (p : ProjInput) (h0 : 0 ≤ p.initial_balance) (i : ℕ) :
    0 ≤ balanceBefore p i := by
  unfold balanceBefore
  exact threadBalance_nonneg p (by exact_mod_cast pyRound_nonneg h0) 0 _

theorem withdrawals_getD (p : ProjInput) {i : ℕ} (hi : i < p.annual_contributions.length) :
    (calculate_401k_growth p).2.getD i 0 =
      pyRound (withdrawalAmount p (p.current_age + i) (balanceBefore p i)) := by
  rw [List.getD_eq_getElem?_getD, withdrawals_get p hi]
  rfl

theorem balances_getD (p : ProjInput) {i : ℕ} (hi : i < p.annual_contributions.length) :
    (calculate_401k_growth p).1.getD i 0 = pyRound (balanceBefore p (i + 1)) := by
  rw [List.getD_eq_getElem?_getD, balances_get p hi]
  rfl

/-- Whenever RMD is enabled and the age has a divisor in the table, the
withdrawal of the step is at least the RMD amount. -/
theorem withdrawalAmount_ge_rmd (p : ProjInput) {age : ℤ} {d : ℚ}
    (hrmd : p.enable_rmd = true) (hd : lookupDivisor age = some d) (bb : ℚ) :
    bb / d ≤ withdrawalAmount p age bb := by
  have h72 : (72 : ℤ) ≤ age := (lookupDivisor_mem hd).1
  unfold withdrawalAmount
  rw [if_pos (And.intro (by rw [hrmd]) h72), hd]
  show bb / d ≤
    if baseWithdrawal p age bb < bb / d then bb / d else baseWithdrawal p age bb
  split_ifs with h
  · exact le_refl _
  · exact le_of_not_lt h

/- ### Concrete inputs used in counterexamples and witnesses -/

/-- An input whose age-72 year lies before the retirement age 80, with RMD
enabled and a zero withdrawal rate. -/
def exInputC1 : ProjInput :=
  { initial_balance := 2740, annual_contributions := [0], retirement_age := 80,
    current_age := 72, withdrawal_rate := 0, enable_rmd := true,
    growth_rate_aggressive := 0, growth_rate_conservative := 0 }

/-- A plain pre-retirement input: one projected year at age 30 with
retirement age 65, RMD enabled. -/
def exPreRet : ProjInput :=
  { initial_balance := 100, annual_contributions := [0], retirement_age := 65,
    current_age := 30, withdrawal_rate := 0, enable_rmd := true,
    growth_rate_aggressive := 0, growth_rate_conservative := 0 }

/-- An input at retirement age with 1 percent conservative growth, whose
year-0 running balance 50.5 rounds to a different recorded value. -/
def exInputC2 : ProjInput :=
  { initial_balance := 50, annual_contributions := [0, 0], retirement_age := 60,
    current_age := 60, withdrawal_rate := 0, enable_rmd := false,
    growth_rate_aggressive := 0, growth_rate_conservative := 1 }

/-- An input whose contributions list (length 1) does not match the span
101 - current_age = 61. -/
def exInputC3 : ProjInput :=
  { initial_balance := 100, annual_contributions := [100], retirement_age := 65,
    current_age := 40, withdrawal_rate := 0, enable_rmd := false,
    growth_rate_aggressive := 0, growth_rate_conservative := 0 }

/- ### Claim C1 -/

/-- Claim C1 (amended): a pre-retirement year records a zero withdrawal
provided RMD is disabled or the age of the year is below 72; the clause of
the original claim making this independent of enable_rmd and of age 72
fails, because the RMD branch also fires before retirement age. -/
theorem C1_pre_retirement_silence (p : ProjInput) (i : ℕ)
    (hi : i < p.annual_contributions.length)
    (hage : p.current_age + (i : ℤ) < p.retirement_age)
    (hrmd : p.enable_rmd = false ∨ p.current_age + (i : ℤ) < 72) :
    (calculate_401k_growth p).2[i]? = some 0 := by
  rw [withdrawals_get p hi]
  have hw : withdrawalAmount p (p.current_age + i) (balanceBefore p i) = 0 := by
    unfold withdrawalAmount baseWithdrawal
    rcases hrmd with h | h
    · simp [h, not_le.mpr hage]
    · simp [not_le.mpr hage, not_le.mpr h]
  rw [hw, pyRound_zero]

/-- Witness for C1: at age 30, retirement age 65, RMD enabled, the
recorded withdrawal of year 0 is zero. -/
theorem C1_pre_retirement_silence_witness :
    (calculate_401k_growth exPreRet).2[0]? = some 0 :=
  C1_pre_retirement_silence exPreRet 0 (by decide) (by decide) (Or.inr (by decide))

/-- Counterexample to claim C1 as stated: here age 72 is before the
retirement age 80, yet with RMD enabled the recorded withdrawal of the
age-72 year is 100, not 0. -/
theorem C1_counterexample :
    exInputC1.current_age + (0 : ℤ) < exInputC1.retirement_age ∧
    exInputC1.enable_rmd = true ∧
    (calculate_401k_growth exInputC1).2[0]? ≠ some 0 := by
  refine ⟨by decide, by decide, ?_⟩
  have h : (calculate_401k_growth exInputC1).2[0]? = some 100 := by
    norm_num [calculate_401k_growth, runLoop, stepResult, afterContribution, afterGrowth,
      withdrawalAmount, baseWithdrawal, lookupDivisor, uniform_lifetime_table, pyRound,
      exInputC1]
  rw [h]
  decide

/- ### Claim C2 -/

/-- Claim C2 (amended): the recorded balance of year i is the rounding of
the balance carried into year i+1; the carry itself stays unrounded, so
rounding affects only the recorded output sequence, not the running
balance threaded between years. -/
theorem C2_recorded_balance_rounding (p : ProjInput) (i : ℕ)
    (hi : i < p.annual_contributions.length) :
    (calculate_401k_growth p).1[i]? = some (pyRound (balanceBefore p (i + 1))) :=
  balances_get p hi

/-- Witness for C2 at a concrete input. -/
theorem C2_recorded_balance_rounding_witness :
    (calculate_401k_growth exPreRet).1[0]? = some (pyRound (balanceBefore exPreRet 1)) :=
  C2_recorded_balance_rounding exPreRet 0 (by decide)

/-- Counterexample to claim C2 as stated: at this input the balance
carried into year 1 is 50.5 while the recorded year-0 balance is 50, so
the carry-in of a year is not the rounded recorded balance of the year
before. -/
theorem C2_counterexample :
    1 < exInputC2.annual_contributions.length ∧
    balanceBefore exInputC2 1 ≠ ((calculate_401k_growth exInputC2).1.getD 0 0 : ℚ) := by
  refine ⟨by decide, ?_⟩
  have h1 : balanceBefore exInputC2 1 = 50.5 := by
    norm_num [balanceBefore, threadBalance, stepResult, afterContribution, afterGrowth,
      withdrawalAmount, baseWithdrawal, lookupDivisor, uniform_lifetime_table, pyRound,
      exInputC2, List.take]
  have h2 : (calculate_401k_growth exInputC2).1.getD 0 0 = 50 := by
    norm_num [calculate_401k_growth, runLoop, stepResult, afterContribution, afterGrowth,
      withdrawalAmount, baseWithdrawal, lookupDivisor, uniform_lifetime_table, pyRound,
      exInputC2, List.getD]
  rw [h1, h2]
  norm_num

/- ### Claim C3 -/

/-- Claim C3 (amended): the engine performs no validation of the length of
annual_contributions; for every input it returns, without failing, a pair
of sequences whose common length is the length of annual_contributions,
even when that differs from 101 - current_age. -/
theorem C3_no_length_validation (p : ProjInput) :
    (calculate_401k_growth p).1.length = p.annual_contributions.length ∧
    (calculate_401k_growth p).2.length = p.annual_contributions.length :=
  ⟨runLoop_fst_length p _ 0 _, runLoop_snd_length p _ 0 _⟩

/-- Counterexample to claim C3 as stated: a contributions list of length 1
with current age 40 (expected span 61) is processed without any error and
yields an output of length 1. -/
theorem C3_counterexample :
    (exInputC3.annual_contributions.length : ℤ) ≠ 101 - exInputC3.current_age ∧
    (calculate_401k_growth exInputC3).1.length = exInputC3.annual_contributions.length := by
  refine ⟨by decide, ?_⟩
  rw [calculate_401k_growth]
  exact runLoop_fst_length _ _ 0 _

/- ### Claim C4 -/

/-- An input whose exact RMD amount 2741 / 27.4 has a fractional part
below one half, so the recorded withdrawal rounds down below it. -/
def exInputC4 : ProjInput :=
  { initial_balance := 2741, annual_contributions := [0], retirement_age := 100,
    current_age := 72, withdrawal_rate := 0, enable_rmd := true,
    growth_rate_aggressive := 0, growth_rate_conservative := 0 }

/-- Claim C4 (amended): with RMD enabled, at any age having a table entry
the recorded withdrawal is at least the rounding of balance_before divided
by the divisor; the withdrawal before recording is at least the exact
quotient, but the recorded integer can fall below the exact quotient by
less than half a unit, so the bound holds after rounding both sides. -/
theorem C4_rmd_floor (p : ProjInput) (i : ℕ)
    (hi : i < p.annual_contributions.length)
    (hrmd : p.enable_rmd = true) {d : ℚ}
    (hd : lookupDivisor (p.current_age + i) = some d) :
    pyRound (balanceBefore p i / d) ≤ (calculate_401k_growth p).2.getD i 0 := by
  rw [withdrawals_getD p hi]
  exact pyRound_mono (withdrawalAmount_ge_rmd p hrmd hd _)

/-- Witness for C4: at the age-72 input with balance 2740 the recorded
withdrawal 100 meets the rounded RMD floor. -/
theorem C4_rmd_floor_witness :
    pyRound (balanceBefore exInputC1 0 / (27.4 : ℚ)) ≤
      (calculate_401k_growth exInputC1).2.getD 0 0 :=
  C4_rmd_floor exInputC1 0 (by decide) (by decide)
    (by norm_num [exInputC1, lookupDivisor, uniform_lifetime_table])

/-- Counterexample to claim C4 as stated: with balance 2741 at age 72 the
exact RMD is 2741 / 27.4, but the recorded withdrawal is its rounding 100,
which is strictly below the exact quotient. -/
theorem C4_counterexample :
    exInputC4.enable_rmd = true ∧
    lookupDivisor (exInputC4.current_age + (0 : ℕ)) = some (27.4 : ℚ) ∧
    ¬ (balanceBefore exInputC4 0 / (27.4 : ℚ) ≤
        ((calculate_401k_growth exInputC4).2.getD 0 0 : ℚ)) := by
  refine ⟨by decide, by norm_num [exInputC4, lookupDivisor, uniform_lifetime_table], ?_⟩
  have h1 : balanceBefore exInputC4 0 = 2741 := by
    norm_num [balanceBefore, threadBalance, pyRound, exInputC4, List.take]
  have h2 : (calculate_401k_growth exInputC4).2.getD 0 0 = 100 := by
    norm_num [calculate_401k_growth, runLoop, stepResult, afterContribution, afterGrowth,
      withdrawalAmount, baseWithdrawal, lookupDivisor, uniform_lifetime_table, pyRound,
      exInputC4, List.getD]
  rw [h1, h2]
  norm_num

/- ### Claim C5 -/

/-- Claim C5 (confirmed): under non-negative inputs every recorded balance
is non-negative, and whenever the withdrawal of a year exceeds the running
balance after contribution and growth, the recorded balance of that year
is exactly zero: the excess is discarded and no error can arise since the
engine is a total function. -/
theorem C5_balance_nonneg (p : ProjInput)
    (h0 : 0 ≤ p.initial_balance)
    (hc : ∀ c ∈ p.annual_contributions, 0 ≤ c)
    (hga : 0 ≤ p.growth_rate_aggressive) (hgc : 0 ≤ p.growth_rate_conservative)
    (hwr : 0 ≤ p.withdrawal_rate)
    (i : ℕ) (hi : i < p.annual_contributions.length) :
    0 ≤ (calculate_401k_growth p).1.getD i 0 ∧
    (afterGrowth p (p.current_age + i)
        (afterContribution p (p.current_age + i) (balanceBefore p i)
          (p.annual_contributions.getD i 0))
        < withdrawalAmount p (p.current_age + i) (balanceBefore p i) →
      (calculate_401k_growth p).1.getD i 0 = 0) := by
  have hb : (calculate_401k_growth p).1.getD i 0 = pyRound (balanceBefore p (i + 1)) :=
    balances_getD p hi
  have hstep : balanceBefore p (i + 1) =
      max (afterGrowth p (p.current_age + i)
            (afterContribution p (p.current_age + i) (balanceBefore p i)
              (p.annual_contributions.getD i 0))
          - withdrawalAmount p (p.current_age + i) (balanceBefore p i)) 0 := by
    rw [balanceBefore_succ p hi]
    rfl
  constructor
  · rw [hb, hstep]
    exact pyRound_nonneg (le_max_right _ _)
  · intro hlt
    rw [hb, hstep, max_eq_right (by linarith)]
    exact pyRound_zero

/-- Witness for C5 at a concrete input. -/
theorem C5_balance_nonneg_witness :
    0 ≤ (calculate_401k_growth exPreRet).1.getD 0 0 :=
  (C5_balance_nonneg exPreRet (by norm_num [exPreRet])
    (by intro c hcm; simp [exPreRet] at hcm; simp [hcm])
    (by norm_num [exPreRet]) (by norm_num [exPreRet]) (by norm_num [exPreRet])
    0 (by decide)).1

/- ### Claim C6 -/

/-- Claim C6 (confirmed): the running balance after the contribution and
growth steps of year i equals (balance_before + c) times (1 + g / 100),
where c is the contribution of year i when age is strictly below
retirement age and 0 otherwise, and g is the aggressive rate when
age + 5 is strictly below retirement age and the conservative rate
otherwise. -/
theorem C6_contribution_growth (p : ProjInput) (i : ℕ) :
    afterGrowth p (p.current_age + i)
        (afterContribution p (p.current_age + i) (balanceBefore p i)
          (p.annual_contributions.getD i 0)) =
      (balanceBefore p i +
          (if p.current_age + (i : ℤ) < p.retirement_age
            then p.annual_contributions.getD i 0 else 0)) *
        (1 + (if p.current_age + (i : ℤ) + 5 < p.retirement_age
            then p.growth_rate_aggressive else p.growth_rate_conservative) / 100) := by
  unfold afterGrowth afterContribution
  split_ifs <;> ring

/- ### Claim C7 -/

/-- A just-retired input with withdrawal rate 10 and RMD disabled. -/
def exInputC7 : ProjInput :=
  { initial_balance := 1000, annual_contributions := [0], retirement_age := 65,
    current_age := 65, withdrawal_rate := 10, enable_rmd := false,
    growth_rate_aggressive := 0, growth_rate_conservative := 0 }

/-- Claim C7 (confirmed): once age reaches retirement age, the withdrawal
before any RMD adjustment is balance_before times withdrawal_rate / 100,
where balance_before is the balance entering the step, not the post-growth
balance; and when the RMD adjustment does not apply (RMD disabled, or no
table entry for the age), the recorded withdrawal is the rounding of that
amount. -/
theorem C7_withdrawal_from_previous_balance (p : ProjInput) (i : ℕ)
    (hi : i < p.annual_contributions.length)
    (hage : p.retirement_age ≤ p.current_age + (i : ℤ)) :
    baseWithdrawal p (p.current_age + i) (balanceBefore p i) =
      balanceBefore p i * (p.withdrawal_rate / 100) ∧
    ((p.enable_rmd = false ∨ lookupDivisor (p.current_age + i) = none) →
      (calculate_401k_growth p).2[i]? =
        some (pyRound (balanceBefore p i * (p.withdrawal_rate / 100)))) := by
  have hbase : baseWithdrawal p (p.current_age + i) (balanceBefore p i) =
      balanceBefore p i * (p.withdrawal_rate / 100) := by
    unfold baseWithdrawal
    rw [if_pos hage]
  refine ⟨hbase, fun hno => ?_⟩
  rw [withdrawals_get p hi]
  have hw : withdrawalAmount p (p.current_age + i) (balanceBefore p i) =
      balanceBefore p i * (p.withdrawal_rate / 100) := by
    unfold withdrawalAmount
    rcases hno with h | h
    · rw [if_neg (by simp [h])]
      exact hbase
    · split_ifs with hcond
      · rw [h]
        exact hbase
      · exact hbase
  rw [hw]

/-- Witness for C7: at retirement age 65 with rate 10 and RMD disabled,
the recorded withdrawal is the rounding of balance_before times 10 / 100. -/
theorem C7_withdrawal_from_previous_balance_witness :
    (calculate_401k_growth exInputC7).2[0]? =
      some (pyRound (balanceBefore exInputC7 0 * (exInputC7.withdrawal_rate / 100))) :=
  (C7_withdrawal_from_previous_balance exInputC7 0 (by decide) (by decide)).2
    (Or.inl (by decide))

/- ### Claim C8 -/

/-- The input family of claim C8: zero rates, zero withdrawal rate, RMD
disabled, whole non-negative initial balance and contributions. -/
def zeroGrowthInput (init : ℕ) (cs : List ℕ) (ca ra : ℤ) : ProjInput :=
  { initial_balance := (init : ℚ),
    annual_contributions := List.map (Nat.cast : ℕ → ℚ) cs,
    retirement_age := ra, current_age := ca,
    withdrawal_rate := 0, enable_rmd := false,
    growth_rate_aggressive := 0, growth_rate_conservative := 0 }

/-- An input with zero rates and fractional initial balance 3 / 2, whose
year-0 recorded balance is the rounded value 2, not 3 / 2. -/
def exInputC8 : ProjInput :=
  { initial_balance := 3/2, annual_contributions := [0], retirement_age := 65,
    current_age := 30, withdrawal_rate := 0, enable_rmd := false,
    growth_rate_aggressive := 0, growth_rate_conservative := 0 }

/-- Claim C8 (amended): with both growth rates 0, withdrawal rate 0, RMD
disabled, and initial balance and contributions that are whole
non-negative amounts, every recorded balance of a year before retirement
age equals the initial balance plus the sum of the contributions of years
0 through i; for fractional inputs the recorded value is additionally
rounded, so equality can fail (see the counterexample). -/
theorem C8_zero_growth_sum (init : ℕ) (cs : List ℕ) (ca ra : ℤ) (i : ℕ)
    (hi : i < cs.length) (hage : ca + (i : ℤ) < ra) :
    (calculate_401k_growth (zeroGrowthInput init cs ca ra)).1[i]? =
      some ((init : ℤ) + ((cs.take (i + 1)).sum : ℤ)) := by
  have hlen : (zeroGrowthInput init cs ca ra).annual_contributions.length = cs.length := by
    simp only [zeroGrowthInput]
    exact List.length_map _ _
  have hi' : i < (zeroGrowthInput init cs ca ra).annual_contributions.length := by
    rw [hlen]; exact hi
  have key : ∀ j : ℕ, j ≤ i + 1 →
      balanceBefore (zeroGrowthInput init cs ca ra) j
        = (init : ℚ) + ((cs.take j).sum : ℚ) := by
    intro j
    induction j with
    | zero =>
        intro _
        unfold balanceBefore
        rw [List.take_zero]
        show ((pyRound (zeroGrowthInput init cs ca ra).initial_balance : ℤ) : ℚ) = _
        have hcast : (zeroGrowthInput init cs ca ra).initial_balance = ((init : ℤ) : ℚ) := by
          simp [zeroGrowthInput]
        rw [hcast, pyRound_intCast]
        simp
    | succ j ihj =>
        intro hj1
        have hji : j ≤ i := by omega
        have hjlt : j < cs.length := by omega
        have hjlen : j < (zeroGrowthInput init cs ca ra).annual_contributions.length := by
          rw [hlen]; exact hjlt
        have hbb := ihj (by omega)
        have hagej : ca + (j : ℤ) < ra := by
          have hj2 : (j : ℤ) ≤ (i : ℤ) := by exact_mod_cast hji
          omega
        have hcj : (zeroGrowthInput init cs ca ra).annual_contributions.getD j 0
            = ((cs.getD j 0 : ℕ) : ℚ) := by
          rw [List.getD_eq_getElem _ _ hjlen, List.getD_eq_getElem _ _ hjlt]
          simp [zeroGrowthInput]
        rw [balanceBefore_succ _ hjlen, hcj]
        have hstep : ∀ b c : ℚ, 0 ≤ b → 0 ≤ c →
            (stepResult (zeroGrowthInput init cs ca ra) b j c).1 = b + c := by
          intro b c hb hcpos
          unfold stepResult afterGrowth afterContribution withdrawalAmount baseWithdrawal
          simp only [zeroGrowthInput]
          simp [hagej, not_le.mpr hagej]
          linarith
        have hb0 : 0 ≤ balanceBefore (zeroGrowthInput init cs ca ra) j := by
          rw [hbb]
          positivity
        rw [hstep _ _ hb0 (by positivity), hbb]
        have hsum : ((cs.take (j + 1)).sum : ℚ)
            = ((cs.take j).sum : ℚ) + ((cs.getD j 0 : ℕ) : ℚ) := by
          rw [List.sum_take_succ _ _ hjlt, List.getD_eq_getElem _ _ hjlt]
          push_cast
          ring
        rw [hsum]
        ring
  rw [balances_get _ hi', key (i + 1) (le_refl _)]
  generalize (cs.take (i + 1)).sum = s
  have hfin : (init : ℚ) + (s : ℚ) = ((((init : ℤ) + (s : ℤ)) : ℤ) : ℚ) := by
    push_cast
    ring
  rw [hfin, pyRound_intCast]

/-- Witness for C8 at a concrete input: start 5, contributions 3 then 4,
ages 30 and 31 both before retirement age 65; the year-1 balance is 12. -/
theorem C8_zero_growth_sum_witness :
    (calculate_401k_growth (zeroGrowthInput 5 [3, 4] 30 65)).1[1]? =
      some ((5 : ℤ) + ((([3, 4] : List ℕ).take 2).sum : ℤ)) :=
  C8_zero_growth_sum 5 [3, 4] 30 65 1 (by decide) (by decide)

/-- Counterexample to claim C8 as stated: with a fractional initial
balance 3 / 2 and a zero contribution, the year-0 recorded balance is the
rounded 2, not 3 / 2 + 0, because the engine rounds its starting balance
and each recorded value. -/
theorem C8_counterexample :
    exInputC8.growth_rate_aggressive = 0 ∧ exInputC8.growth_rate_conservative = 0 ∧
    exInputC8.withdrawal_rate = 0 ∧ exInputC8.enable_rmd = false ∧
    exInputC8.current_age + (0 : ℤ) < exInputC8.retirement_age ∧
    ((calculate_401k_growth exInputC8).1.getD 0 0 : ℚ) ≠
      exInputC8.initial_balance + (exInputC8.annual_contributions.take 1).sum := by
  refine ⟨rfl, rfl, rfl, rfl, by decide, ?_⟩
  have h : (calculate_401k_growth exInputC8).1.getD 0 0 = 2 := by
    norm_num [calculate_401k_growth, runLoop, stepResult, afterContribution, afterGrowth,
      withdrawalAmount, baseWithdrawal, lookupDivisor, uniform_lifetime_table, pyRound,
      exInputC8, List.getD]
  rw [h]
  norm_num [exInputC8]

/- ### Claim C9 -/

/-- An all-zero input at age 72 with RMD enabled: the RMD of a zero
balance is zero, so the recorded withdrawal is zero. -/
def exInputC9 : ProjInput :=
  { initial_balance := 0, annual_contributions := [0], retirement_age := 72,
    current_age := 72, withdrawal_rate := 0, enable_rmd := true,
    growth_rate_aggressive := 0, growth_rate_conservative := 0 }

/-- Claim C9 (amended): at the year of age 72 with RMD enabled and zero
withdrawal rate, the recorded withdrawal is strictly positive provided
the balance entering that year exceeds 13.7 = 27.4 / 2, so that the RMD
amount exceeds half a currency unit and survives rounding; with smaller
balances (for example zero) the recorded withdrawal can be 0. -/
theorem C9_rmd_forces_positive_withdrawal (p : ProjInput) (i : ℕ)
    (hi : i < p.annual_contributions.length)
    (hage : p.current_age + (i : ℤ) = 72)
    (hrmd : p.enable_rmd = true)
    (hwr : p.withdrawal_rate = 0)
    (hbal : (13.7 : ℚ) < balanceBefore p i) :
    0 < (calculate_401k_growth p).2.getD i 0 := by
  rw [withdrawals_getD p hi]
  have hbase : baseWithdrawal p 72 (balanceBefore p i) = 0 := by
    unfold baseWithdrawal
    split_ifs <;> simp [hwr]
  have hw : withdrawalAmount p (p.current_age + i) (balanceBefore p i) =
      balanceBefore p i / (27.4 : ℚ) := by
    unfold withdrawalAmount
    rw [hage, lookupDivisor_72]
    rw [if_pos (And.intro (by rw [hrmd]) (le_refl (72 : ℤ)))]
    show (if baseWithdrawal p 72 (balanceBefore p i) < balanceBefore p i / (27.4 : ℚ)
          then balanceBefore p i / (27.4 : ℚ)
          else baseWithdrawal p 72 (balanceBefore p i)) = _
    rw [hbase, if_pos (div_pos (by linarith) (by norm_num))]
  rw [hw]
  have hhalf : (1 : ℚ)/2 < balanceBefore p i / (27.4 : ℚ) := by
    rw [lt_div_iff (by norm_num : (0 : ℚ) < 27.4)]
    linarith
  have h1 := pyRound_pos hhalf
  omega

/-- Witness for C9: balance 2740 entering age 72 forces a positive
recorded withdrawal (100). -/
theorem C9_rmd_forces_positive_withdrawal_witness :
    0 < (calculate_401k_growth exInputC1).2.getD 0 0 :=
  C9_rmd_forces_positive_withdrawal exInputC1 0 (by decide) (by decide) rfl rfl
    (by norm_num [balanceBefore, threadBalance, pyRound, exInputC1, List.take_zero])

/-- Counterexample to claim C9 as stated: with a zero balance at age 72,
RMD enabled and zero withdrawal rate, the recorded withdrawal is 0, not
strictly positive. -/
theorem C9_counterexample :
    exInputC9.enable_rmd = true ∧ exInputC9.withdrawal_rate = 0 ∧
    exInputC9.current_age + (0 : ℤ) = 72 ∧
    0 < exInputC9.annual_contributions.length ∧
    ¬ (0 < (calculate_401k_growth exInputC9).2.getD 0 0) := by
  refine ⟨rfl, rfl, by decide, by decide, ?_⟩
  have h : (calculate_401k_growth exInputC9).2.getD 0 0 = 0 := by
    norm_num [calculate_401k_growth, runLoop, stepResult, afterContribution, afterGrowth,
      withdrawalAmount, baseWithdrawal, lookupDivisor, uniform_lifetime_table, pyRound,
      exInputC9, List.getD]
  rw [h]
  decide

/- ### Claim C10 -/

/-- Under the input-collection bounds, the withdrawal of a step is at most
the balance entering the step divided by 6.4, the smallest divisor of the
lifetime table. -/
theorem withdrawalAmount_le (p : ProjInput) (age : ℤ) {bb : ℚ}
    (hbb : 0 ≤ bb) (hwr : p.withdrawal_rate ≤ 10) :
    withdrawalAmount p age bb ≤ bb / (6.4 : ℚ) := by
  have hbase : baseWithdrawal p age bb ≤ bb / (6.4 : ℚ) := by
    unfold baseWithdrawal
    split_ifs
    · have h1 : bb * (p.withdrawal_rate / 100) ≤ bb * ((10 : ℚ) / 100) :=
        mul_le_mul_of_nonneg_left (by linarith) hbb
      have h2 : bb * ((10 : ℚ) / 100) ≤ bb / (6.4 : ℚ) := by
        rw [div_eq_mul_inv bb]
        exact mul_le_mul_of_nonneg_left (by norm_num) hbb
      linarith
    · positivity
  unfold withdrawalAmount
  split_ifs with hcond
  · cases hld : lookupDivisor age with
    | none =>
        exact hbase
    | some d =>
        have hd : (6.4 : ℚ) ≤ d := (lookupDivisor_mem hld).2.2
        have hrmdle : bb / d ≤ bb / (6.4 : ℚ) :=
          div_le_div_of_nonneg_left hbb (by norm_num) hd
        show (if baseWithdrawal p age bb < bb / d then bb / d else baseWithdrawal p age bb)
            ≤ bb / (6.4 : ℚ)
        split_ifs
        · exact hrmdle
        · exact hbase
  · exact hbase

/-- With non-negative balance, contribution and growth rates, the balance
after contribution and growth is at least the balance entering the step. -/
theorem afterGrowth_ge (p : ProjInput) (age : ℤ) {bb c : ℚ}
    (hbb : 0 ≤ bb) (hc : 0 ≤ c)
    (hga : 0 ≤ p.growth_rate_aggressive) (hgc : 0 ≤ p.growth_rate_conservative) :
    bb ≤ afterGrowth p age (afterContribution p age bb c) := by
  unfold afterGrowth afterContribution
  have h1 : 0 ≤ (bb + c) * (p.growth_rate_aggressive / 100) :=
    mul_nonneg (by linarith) (by positivity)
  have h2 : 0 ≤ (bb + c) * (p.growth_rate_conservative / 100) :=
    mul_nonneg (by linarith) (by positivity)
  have h3 : 0 ≤ bb * (p.growth_rate_aggressive / 100) :=
    mul_nonneg hbb (by positivity)
  have h4 : 0 ≤ bb * (p.growth_rate_conservative / 100) :=
    mul_nonneg hbb (by positivity)
  split_ifs <;> nlinarith

/-- Claim C10 (confirmed): under the input-collection bounds
(non-negative initial balance, contributions and growth rates, withdrawal
rate at most 10, and every table divisor at least 6.4), the withdrawal of
every step is at most the post-growth running balance, so the
clamp to zero of src/app.py line 96 never changes the value. -/
theorem C10_clamp_never_fires (p : ProjInput)
    (h0 : 0 ≤ p.initial_balance)
    (hc : ∀ c ∈ p.annual_contributions, 0 ≤ c)
    (hga : 0 ≤ p.growth_rate_aggressive) (hgc : 0 ≤ p.growth_rate_conservative)
    (hwr : p.withdrawal_rate ≤ 10)
    (i : ℕ) (hi : i < p.annual_contributions.length) :
    withdrawalAmount p (p.current_age + i) (balanceBefore p i) ≤
      afterGrowth p (p.current_age + i)
        (afterContribution p (p.current_age + i) (balanceBefore p i)
          (p.annual_contributions.getD i 0)) ∧
    max (afterGrowth p (p.current_age + i)
          (afterContribution p (p.current_age + i) (balanceBefore p i)
            (p.annual_contributions.getD i 0))
        - withdrawalAmount p (p.current_age + i) (balanceBefore p i)) 0 =
      afterGrowth p (p.current_age + i)
        (afterContribution p (p.current_age + i) (balanceBefore p i)
          (p.annual_contributions.getD i 0))
      - withdrawalAmount p (p.current_age + i) (balanceBefore p i) := by
  have hbb : 0 ≤ balanceBefore p i := balanceBefore_nonneg p h0 i
  have hcd : 0 ≤ p.annual_contributions.getD i 0 := by
    rw [List.getD_eq_getElem _ _ hi]
    exact hc _ (List.getElem_mem hi)
  have hw : withdrawalAmount p (p.current_age + i) (balanceBefore p i)
      ≤ balanceBefore p i / (6.4 : ℚ) :=
    withdrawalAmount_le p _ hbb hwr
  have hdiv : balanceBefore p i / (6.4 : ℚ) ≤ balanceBefore p i :=
    div_le_self hbb (by norm_num)
  have hg := afterGrowth_ge p (p.current_age + i) hbb hcd hga hgc
  constructor
  · linarith
  · exact max_eq_left (by linarith)

/-- Witness for C10 at a concrete input. -/
theorem C10_clamp_never_fires_witness :
    withdrawalAmount exPreRet (exPreRet.current_age + ((0 : ℕ) : ℤ)) (balanceBefore exPreRet 0) ≤
      afterGrowth exPreRet (exPreRet.current_age + ((0 : ℕ) : ℤ))
        (afterContribution exPreRet (exPreRet.current_age + ((0 : ℕ) : ℤ))
          (balanceBefore exPreRet 0) (exPreRet.annual_contributions.getD 0 0)) :=
  (C10_clamp_never_fires exPreRet (by norm_num [exPreRet])
    (by intro c hcm; simp [exPreRet] at hcm; simp [hcm])
    (by norm_num [exPreRet]) (by norm_num [exPreRet]) (by norm_num [exPreRet])
    0 (by decide)).1

end K401
